import Mathlib

/-!
Verification of the confidential-election system (Arcium MPC circuit + Anchor
programs) against its natural-language specification.

The development shallowly embeds:
  * the encrypted circuit module `src/encrypted-ixs/src/lib.rs` (namespace
    `circuits`): `VoteStats`, `UserVote`, `init_vote_stats`, `vote`,
    `reveal_result`;
  * the `voting` Anchor program `src/programs/voting/src/lib.rs`
    (namespace `Voting`): poll account state, instruction handlers and
    callbacks, with Solana transaction-revert semantics made explicit by
    `run_*` wrappers;
  * the `election` Anchor program `src/programs/election/src/*`
    (namespace `Election`): the `ArgBuilder`-based handlers and signed
    callbacks.

Machine integers are modelled as `Nat` with explicit reduction modulo
`2 ^ 64` where the Rust source operates on wrapping `u64` values.
-/

/-- `2 ^ 64`, the modulus of Rust/Arcis `u64` arithmetic. -/
def U64_MOD : Nat := 2 ^ 64

namespace circuits

/-- Embeds `VoteStats` from `src/encrypted-ixs/src/lib.rs`: the three `u64`
vote counters (0 = Neo robot, 1 = Humane AI PIN, 2 = friend.com), each
modelled as a `Nat` kept below `U64_MOD` by the wrapping increment. -/
structure VoteStats where
  neo_robot : Nat
  humane_ai_pin : Nat
  friend_com : Nat
deriving DecidableEq, Repr

/-- Embeds `UserVote` from `src/encrypted-ixs/src/lib.rs`: a single `u8`
vote code (legal values 0, 1, 2). -/
structure UserVote where
  vote : Nat
deriving DecidableEq, Repr

/-- Embeds `init_vote_stats` from `src/encrypted-ixs/src/lib.rs`:
all three counters start at zero. -/
def init_vote_stats : VoteStats :=
  { neo_robot := 0, humane_ai_pin := 0, friend_com := 0 }

/-- Embeds the `vote` instruction from `src/encrypted-ixs/src/lib.rs`
(lines 48-65): an if/else-if chain on the decrypted vote code that
increments `neo_robot` when the code is 0, `humane_ai_pin` when it is 1,
and `friend_com` otherwise.  The `u64` increment wraps modulo `2 ^ 64`. -/
def vote (user_vote : UserVote) (vote_stats : VoteStats) : VoteStats :=
  if user_vote.vote = 0 then
    { vote_stats with neo_robot := (vote_stats.neo_robot + 1) % U64_MOD }
  else if user_vote.vote = 1 then
    { vote_stats with humane_ai_pin := (vote_stats.humane_ai_pin + 1) % U64_MOD }
  else
    { vote_stats with friend_com := (vote_stats.friend_com + 1) % U64_MOD }

/-- Embeds `reveal_result` from `src/encrypted-ixs/src/lib.rs`
(lines 79-103): all three counters are revealed, the maximum is computed
by chained `.max()` calls, and the first (lowest-index) counter equal to
the maximum is returned as the winner. -/
def reveal_result (vote_stats : VoteStats) : Nat :=
  let neo_count := vote_stats.neo_robot
  let humane_count := vote_stats.humane_ai_pin
  let friend_count := vote_stats.friend_com
  let max_count := (neo_count.max humane_count).max friend_count
  if neo_count = max_count then 0
  else if humane_count = max_count then 1
  else 2

/-- Reads the counter at an option index: 0 = `neo_robot`,
1 = `humane_ai_pin`, 2 (and anything else) = `friend_com`. -/
def count_at (s : VoteStats) : Nat → Nat
  | 0 => s.neo_robot
  | 1 => s.humane_ai_pin
  | _ => s.friend_com

/-- The maximum of the three counters, as `reveal_result` computes it. -/
def maxCount (s : VoteStats) : Nat :=
  (s.neo_robot.max s.humane_ai_pin).max s.friend_com

/-- Folds a list of votes through the `vote` circuit starting from the
all-zero counters produced by `init_vote_stats`. -/
def tally (votes : List UserVote) : VoteStats :=
  votes.foldl (fun s v => vote v s) init_vote_stats

/-- All three counters are genuine `u64` values (below `2 ^ 64`). -/
def wf64 (s : VoteStats) : Prop :=
  s.neo_robot < U64_MOD ∧ s.humane_ai_pin < U64_MOD ∧ s.friend_com < U64_MOD

/-- Modelled from the spec: the select-over-all-options form of the vote
update demanded by sections 4.1 and 9 — every counter receives one addition
whose operand is an arithmetic blend of equality tests against the secret
code, so the same operation sequence runs for every vote value.  Written
from the spec's words for comparison with the source-derived `vote`. -/
def vote_mux (user_vote : UserVote) (s : VoteStats) : VoteStats :=
  let d0 : Nat := if user_vote.vote = 0 then 1 else 0
  let d1 : Nat := if user_vote.vote = 1 then 1 else 0
  let d2 : Nat := (1 - d0) * (1 - d1)
  { neo_robot := (s.neo_robot + d0) % U64_MOD,
    humane_ai_pin := (s.humane_ai_pin + d1) % U64_MOD,
    friend_com := (s.friend_com + d2) % U64_MOD }

end circuits

/-! ## Shared protocol types for the Anchor programs -/

/-- A Solana public key (32 bytes), modelled opaquely as a `Nat`. -/
def Pubkey : Type := Nat

instance : DecidableEq Pubkey := inferInstanceAs (DecidableEq Nat)

instance : Repr Pubkey := inferInstanceAs (Repr Nat)

instance : OfNat Pubkey n := ⟨(n : Nat)⟩

/-- One 32-byte ciphertext block (`[u8; 32]` in the Rust source),
modelled as its list of bytes. -/
def Ciphertext : Type := List Nat

instance : DecidableEq Ciphertext := inferInstanceAs (DecidableEq (List Nat))

instance : Repr Ciphertext := inferInstanceAs (Repr (List Nat))

/-- The all-zero 32-byte ciphertext block (`[0; 32]`). -/
def zeroCiphertext : Ciphertext := List.replicate 32 0

/-- The three ciphertext slots of a tally (`[[u8; 32]; 3]`). -/
def VoteCounts : Type := List Ciphertext

instance : DecidableEq VoteCounts := inferInstanceAs (DecidableEq (List Ciphertext))

/-- The provisional tally stamped at poll creation (`[[0; 32]; 3]`). -/
def zeroVoteCounts : VoteCounts := List.replicate 3 zeroCiphertext

/-- Embeds the `arcium_client` `Argument` variants used by this repository:
an x25519 public key, a plaintext `u128`, an encrypted `u8` ciphertext, and
a by-key/offset/length reference into a persisted account. -/
inductive Argument where
  | ArcisPubkey (pk : Pubkey)
  | PlaintextU128 (n : Nat)
  | EncryptedU8 (c : Ciphertext)
  | Account (key : Pubkey) (offset : Nat) (len : Nat)
deriving DecidableEq, Repr

/-- A computation queued for the MPC cluster: its correlation offset and its
ordered argument list, as passed to `queue_computation`. -/
structure QueuedComputation where
  computation_offset : Nat
  args : List Argument
deriving DecidableEq

/-- Embeds `ErrorCode` from `src/programs/voting/src/lib.rs` (lines
595-603).  These three variants are the entire taxonomy; the enum has no
`InvalidInput` variant. -/
inductive ErrorCode where
  | InvalidAuthority
  | AbortedComputation
  | ClusterNotSet
deriving DecidableEq, Repr

/-- Success payload of the `init_vote_stats` / `vote` computations: the
cluster-produced replacement ciphertexts and their fresh nonce
(the `ciphertexts` / `nonce` fields the callbacks read). -/
structure MxeEncryptedStats where
  ciphertexts : VoteCounts
  nonce : Nat
deriving DecidableEq

/-- Embeds `ComputationOutputs` from `arcium_anchor`: the cluster either
reports success with a payload or reports failure (the Rust callbacks match
every non-`Success` variant with a wildcard arm, modelled here as the
single constructor `Failure`). -/
inductive ComputationOutputs (α : Type) where
  | Success (val : α)
  | Failure
deriving DecidableEq

/-- Whether the cluster reported success. -/
def ComputationOutputs.isSuccess {α : Type} : ComputationOutputs α → Bool
  | .Success _ => true
  | .Failure => false

/-- Events emitted by the programs (`VoteEvent` carries only a timestamp,
`RevealResultEvent` carries only the winning option index). -/
inductive Event where
  | VoteEvent (timestamp : Int)
  | RevealResultEvent (output : Nat)
deriving DecidableEq, Repr

/-- Anchor account discriminators are 8 bytes (`Poll::DISCRIMINATOR.len()`). -/
def DISCRIMINATOR_LEN : Nat := 8

namespace Voting

/-- Embeds `PollAccount` from `src/programs/voting/src/lib.rs` (lines
576-593): bump seed, three encrypted vote counters, poll id, creator
authority, tally nonce, and the bounded question text. -/
structure PollAccount where
  bump : Nat
  vote_state : VoteCounts
  id : Nat
  authority : Pubkey
  nonce : Nat
  question : String
deriving DecidableEq

/-- Embeds the body of `create_new_poll` from
`src/programs/voting/src/lib.rs` (lines 37-71): unconditionally initializes
the poll fields (question, bump, id, authority = payer, nonce, all-zero
vote state) and queues an `init_vote_stats` computation whose only argument
is the plaintext nonce.  The handler performs no validation of any input. -/
def create_new_poll (computation_offset : Nat) (id : Nat) (question : String)
    (nonce : Nat) (payer : Pubkey) (poll_bump : Nat) :
    Except ErrorCode (PollAccount × List QueuedComputation) :=
  .ok ({ bump := poll_bump, vote_state := zeroVoteCounts, id := id,
         authority := payer, nonce := nonce, question := question },
       [{ computation_offset := computation_offset,
          args := [Argument.PlaintextU128 nonce] }])

/-- Embeds the argument list built by `vote` in
`src/programs/voting/src/lib.rs` (lines 119-130): the voter's x25519
public key, the plaintext vote nonce, the encrypted `u8` choice, the
plaintext tally nonce read from the poll account, and the account reference
to the persisted ciphertexts at byte offset 8 + 1 with length 32 * 3. -/
def voteArgs (vote_encryption_pubkey : Pubkey) (vote_nonce : Nat)
    (vote : Ciphertext) (poll_acc : PollAccount) (poll_key : Pubkey) :
    List Argument :=
  [ Argument.ArcisPubkey vote_encryption_pubkey,
    Argument.PlaintextU128 vote_nonce,
    Argument.EncryptedU8 vote,
    Argument.PlaintextU128 poll_acc.nonce,
    Argument.Account poll_key (8 + 1) (32 * 3) ]

/-- Embeds the body of `vote` from `src/programs/voting/src/lib.rs`
(lines 111-145): builds the argument list and queues the computation.
There is no validation of the choice ciphertext (the vote code is opaque
to the program) and no error path in the handler body. -/
def vote (computation_offset : Nat) (poll_id : Nat) (choice : Ciphertext)
    (vote_encryption_pubkey : Pubkey) (vote_nonce : Nat)
    (poll_acc : PollAccount) (poll_key : Pubkey) :
    Except ErrorCode (List QueuedComputation) :=
  .ok [{ computation_offset := computation_offset,
         args := voteArgs vote_encryption_pubkey vote_nonce choice poll_acc poll_key }]

/-- Embeds `vote_callback` from `src/programs/voting/src/lib.rs`
(lines 148-168): on success, replaces the poll's `vote_state` and `nonce`
with the cluster-produced pair and emits a `VoteEvent` carrying only the
clock timestamp; on any other outcome, returns `AbortedComputation`. -/
def vote_callback (poll_acc : PollAccount) (timestamp : Int)
    (output : ComputationOutputs MxeEncryptedStats) :
    Except ErrorCode (PollAccount × List Event) :=
  match output with
  | .Success vote_result =>
      .ok ({ poll_acc with
               vote_state := vote_result.ciphertexts,
               nonce := vote_result.nonce },
           [Event.VoteEvent timestamp])
  | .Failure => .error ErrorCode.AbortedComputation

/-- Embeds `init_vote_stats_callback` from `src/programs/voting/src/lib.rs`
(lines 74-87): on success, replaces the poll's `vote_state` and `nonce`
with the cluster-produced pair; otherwise returns `AbortedComputation`. -/
def init_vote_stats_callback (poll_acc : PollAccount)
    (output : ComputationOutputs MxeEncryptedStats) :
    Except ErrorCode PollAccount :=
  match output with
  | .Success computation_result =>
      .ok { poll_acc with
              vote_state := computation_result.ciphertexts,
              nonce := computation_result.nonce }
  | .Failure => .error ErrorCode.AbortedComputation

/-- Embeds the body of `reveal_result` from
`src/programs/voting/src/lib.rs` (lines 182-214): the `require!` guard
rejects any payer other than the poll authority with `InvalidAuthority`
before anything is queued; otherwise the reveal computation is queued with
the plaintext tally nonce and the account reference.  The handler never
writes to any poll field. -/
def reveal_result (payer : Pubkey) (poll_acc : PollAccount)
    (poll_key : Pubkey) (computation_offset : Nat) :
    Except ErrorCode (List QueuedComputation) :=
  if payer = poll_acc.authority then
    .ok [{ computation_offset := computation_offset,
           args := [Argument.PlaintextU128 poll_acc.nonce,
                    Argument.Account poll_key (8 + 1) (32 * 3)] }]
  else
    .error ErrorCode.InvalidAuthority

/-- Embeds `reveal_result_callback` from `src/programs/voting/src/lib.rs`
(lines 217-229): the callback's account context
(`RevealResultCallback`, lines 539-552) contains no poll account at all,
so the handler can only emit the `RevealResultEvent` with the winner index
on success, or return `AbortedComputation`. -/
def reveal_result_callback (output : ComputationOutputs Nat) :
    Except ErrorCode (List Event) :=
  match output with
  | .Success winner => .ok [Event.RevealResultEvent winner]
  | .Failure => .error ErrorCode.AbortedComputation

/-- Solana revert semantics for `vote_callback`: a failed instruction
aborts its transaction, so the persisted poll stays at its pre-call state
and no events are emitted.  Returns (persisted poll, events, error). -/
def run_vote_callback (poll_acc : PollAccount) (timestamp : Int)
    (output : ComputationOutputs MxeEncryptedStats) :
    PollAccount × List Event × Option ErrorCode :=
  match vote_callback poll_acc timestamp output with
  | .ok (p, evs) => (p, evs, none)
  | .error e => (poll_acc, [], some e)

/-- Solana revert semantics for `reveal_result`: on error the poll is
untouched and nothing is queued.  Returns (persisted poll, queued
computations, error). -/
def run_reveal_result (payer : Pubkey) (poll_acc : PollAccount)
    (poll_key : Pubkey) (computation_offset : Nat) :
    PollAccount × List QueuedComputation × Option ErrorCode :=
  match reveal_result payer poll_acc poll_key computation_offset with
  | .ok qs => (poll_acc, qs, none)
  | .error e => (poll_acc, [], some e)

/-- Solana revert semantics for `reveal_result_callback`: the callback has
no poll account in its context, so the persisted poll passes through
unchanged on every path. -/
def run_reveal_result_callback (poll_acc : PollAccount)
    (output : ComputationOutputs Nat) :
    PollAccount × List Event × Option ErrorCode :=
  match reveal_result_callback output with
  | .ok evs => (poll_acc, evs, none)
  | .error e => (poll_acc, [], some e)

end Voting

namespace Election

/-- The poll record of the `election` program.  Its handlers
(`src/programs/election/src/handlers/*.rs`) access the fields `question`,
`bump`, `id`, `authority`, `nonce` and `vote_counts`.  Modelled from the
spec: the defining file `src/programs/election/src/state/poll.rs` is not
present under `src/`, so the field set and meaning follow the handlers'
accesses and the persisted record layout of spec section 6
(`[bump][counts: 3x32][id][authority][nonce][question]`). -/
structure Poll where
  bump : Nat
  vote_counts : VoteCounts
  id : Nat
  authority : Pubkey
  nonce : Nat
  question : String
deriving DecidableEq

/-- Embeds the `arcium_client` `ArgBuilder`: an ordered accumulator of
`Argument`s, appended to by each builder method and read out by `build`. -/
structure ArgBuilder where
  args : List Argument
deriving DecidableEq

/-- `ArgBuilder::new()`: the empty argument list. -/
def ArgBuilder.new : ArgBuilder := { args := [] }

/-- `ArgBuilder::x25519_pubkey`: appends an x25519 public key argument. -/
def ArgBuilder.x25519_pubkey (b : ArgBuilder) (pk : Pubkey) : ArgBuilder :=
  { args := b.args ++ [Argument.ArcisPubkey pk] }

/-- `ArgBuilder::plaintext_u128`: appends a plaintext `u128` argument. -/
def ArgBuilder.plaintext_u128 (b : ArgBuilder) (n : Nat) : ArgBuilder :=
  { args := b.args ++ [Argument.PlaintextU128 n] }

/-- `ArgBuilder::encrypted_u8`: appends an encrypted `u8` argument. -/
def ArgBuilder.encrypted_u8 (b : ArgBuilder) (c : Ciphertext) : ArgBuilder :=
  { args := b.args ++ [Argument.EncryptedU8 c] }

/-- `ArgBuilder::account`: appends a by-offset/length account reference. -/
def ArgBuilder.account (b : ArgBuilder) (key : Pubkey) (offset : Nat)
    (len : Nat) : ArgBuilder :=
  { args := b.args ++ [Argument.Account key offset len] }

/-- `ArgBuilder::build()`: the accumulated ordered argument list. -/
def ArgBuilder.build (b : ArgBuilder) : List Argument := b.args

/-- Embeds `SignedComputationOutputs` from `arcium_anchor` as used by
`src/programs/election/src/handlers/vote.rs` and `reveal_result.rs`: the
cluster's outputs together with the validity of the attestation signature
that binds them to the request. -/
structure SignedComputationOutputs (α : Type) where
  output : ComputationOutputs α
  signature_valid : Bool
deriving DecidableEq

/-- Failure modes of `verify_output`: a bad attestation signature, or the
cluster reporting abort instead of success. -/
inductive VerifyError where
  | invalidSignature
  | aborted
deriving DecidableEq, Repr

/-- Modelled from the spec (section 4.3 signed tier): `verify_output` from
`arcium_anchor` (not part of this repository's sources) checks the
attestation against the cluster's registered signing material and the
request before unwrapping the success payload; abort or a bad signature is
an error. -/
def SignedComputationOutputs.verify_output {α : Type}
    (s : SignedComputationOutputs α) : Except VerifyError α :=
  if s.signature_valid then
    match s.output with
    | .Success v => .ok v
    | .Failure => .error VerifyError.aborted
  else
    .error VerifyError.invalidSignature

/-- Embeds the body of `create_poll` from
`src/programs/election/src/handlers/create_poll.rs` (lines 28-63):
unconditionally initializes the poll fields (question, bump, id,
authority = payer, the provided nonce, all-zero vote counters) and queues
an init computation whose only argument is the plaintext nonce. -/
def create_poll (computation_offset : Nat) (id : Nat) (question : String)
    (nonce : Nat) (payer : Pubkey) (poll_bump : Nat) :
    Except ErrorCode (Poll × List QueuedComputation) :=
  .ok ({ bump := poll_bump, vote_counts := zeroVoteCounts, id := id,
         authority := payer, nonce := nonce, question := question },
       [{ computation_offset := computation_offset,
          args := [Argument.PlaintextU128 nonce] }])

/-- Embeds `create_poll_callback` from
`src/programs/election/src/handlers/create_poll.rs` (lines 65-78): on
success, replaces the poll's `vote_counts` and `nonce` with the
cluster-produced pair; otherwise returns `AbortedComputation`. -/
def create_poll_callback (poll_account : Poll)
    (output : ComputationOutputs MxeEncryptedStats) :
    Except ErrorCode Poll :=
  match output with
  | .Success computation_result =>
      .ok { poll_account with
              vote_counts := computation_result.ciphertexts,
              nonce := computation_result.nonce }
  | .Failure => .error ErrorCode.AbortedComputation

/-- Embeds the argument list built by `vote` in
`src/programs/election/src/handlers/vote.rs` (lines 44-55) through the
`ArgBuilder` chain: x25519 pubkey, plaintext vote nonce, encrypted `u8`
choice, plaintext tally nonce from the poll account, then the account
reference at offset `DISCRIMINATOR.len() + 1` with length `32 * 3`. -/
def voteArgs (vote_encryption_pubkey : Pubkey) (vote_nonce : Nat)
    (choice : Ciphertext) (poll_account : Poll) (poll_key : Pubkey) :
    List Argument :=
  ((((ArgBuilder.new.x25519_pubkey vote_encryption_pubkey).plaintext_u128
      vote_nonce).encrypted_u8 choice).plaintext_u128
      poll_account.nonce).account poll_key (DISCRIMINATOR_LEN + 1) (32 * 3)
    |>.build

/-- Embeds the body of `vote` from
`src/programs/election/src/handlers/vote.rs` (lines 36-76): builds the
argument list and queues the computation; no validation of any input, no
error path in the body. -/
def vote (computation_offset : Nat) (poll_id : Nat) (choice : Ciphertext)
    (vote_encryption_pubkey : Pubkey) (vote_nonce : Nat)
    (poll_account : Poll) (poll_key : Pubkey) :
    Except ErrorCode (List QueuedComputation) :=
  .ok [{ computation_offset := computation_offset,
         args := voteArgs vote_encryption_pubkey vote_nonce choice
                   poll_account poll_key }]

/-- Embeds `vote_callback` from
`src/programs/election/src/handlers/vote.rs` (lines 78-98): verifies the
signed output, then on success replaces the poll's `vote_counts` and
`nonce` with the cluster-produced pair and emits a `VoteEvent` carrying
only the clock timestamp. -/
def vote_callback (poll_account : Poll) (timestamp : Int)
    (output : SignedComputationOutputs MxeEncryptedStats) :
    Except VerifyError (Poll × List Event) :=
  match output.verify_output with
  | .ok vote_result =>
      .ok ({ poll_account with
               vote_counts := vote_result.ciphertexts,
               nonce := vote_result.nonce },
           [Event.VoteEvent timestamp])
  | .error e => .error e

/-- Embeds the body of `reveal_result` from
`src/programs/election/src/handlers/reveal_result.rs` (lines 26-61): the
`require!` guard rejects any payer other than the poll authority with
`InvalidAuthority` before anything is queued; otherwise the reveal
computation is queued with the plaintext tally nonce and the account
reference built through `ArgBuilder`.  The handler never writes to any
poll field. -/
def reveal_result (payer : Pubkey) (poll_account : Poll)
    (poll_key : Pubkey) (computation_offset : Nat) :
    Except ErrorCode (List QueuedComputation) :=
  if payer = poll_account.authority then
    .ok [{ computation_offset := computation_offset,
           args := ((ArgBuilder.new.plaintext_u128
                       poll_account.nonce).account poll_key
                       (DISCRIMINATOR_LEN + 1) (32 * 3)).build }]
  else
    .error ErrorCode.InvalidAuthority

/-- Embeds `reveal_result_callback` from
`src/programs/election/src/handlers/reveal_result.rs` (lines 63-75): the
callback's account context (`RevealResultCallback`,
`src/programs/election/src/lib.rs` lines 444-457) contains no poll
account, so the handler can only verify the signed output and emit the
`RevealResultEvent` with the winner index. -/
def reveal_result_callback (output : SignedComputationOutputs Nat) :
    Except VerifyError (List Event) :=
  match output.verify_output with
  | .ok winner => .ok [Event.RevealResultEvent winner]
  | .error e => .error e

/-- Solana revert semantics for the election `vote_callback`: a failed
instruction leaves the persisted poll at its pre-call state with no
events. -/
def run_vote_callback (poll_account : Poll) (timestamp : Int)
    (output : SignedComputationOutputs MxeEncryptedStats) :
    Poll × List Event × Option VerifyError :=
  match vote_callback poll_account timestamp output with
  | .ok (p, evs) => (p, evs, none)
  | .error e => (poll_account, [], some e)

/-- Solana revert semantics for the election `create_poll_callback`. -/
def run_create_poll_callback (poll_account : Poll)
    (output : ComputationOutputs MxeEncryptedStats) :
    Poll × Option ErrorCode :=
  match create_poll_callback poll_account output with
  | .ok p => (p, none)
  | .error e => (poll_account, some e)

/-- Solana revert semantics for the election `reveal_result`: on error the
poll is untouched and nothing is queued. -/
def run_reveal_result (payer : Pubkey) (poll_account : Poll)
    (poll_key : Pubkey) (computation_offset : Nat) :
    Poll × List QueuedComputation × Option ErrorCode :=
  match reveal_result payer poll_account poll_key computation_offset with
  | .ok qs => (poll_account, qs, none)
  | .error e => (poll_account, [], some e)

/-- Solana revert semantics for the election `reveal_result_callback`:
the callback has no poll account in its context, so the persisted poll
passes through unchanged on every path. -/
def run_reveal_result_callback (poll_account : Poll)
    (output : SignedComputationOutputs Nat) :
    Poll × List Event × Option VerifyError :=
  match reveal_result_callback output with
  | .ok evs => (poll_account, evs, none)
  | .error e => (poll_account, [], some e)

end Election

/-! ## Concrete sample data used by witnesses and counterexamples -/

/-- A concrete voting-program poll: authority 2, tally nonce 11. -/
def samplePoll : Voting.PollAccount :=
  { bump := 1, vote_state := zeroVoteCounts, id := 7, authority := 2,
    nonce := 11, question := "best gadget" }

/-- A concrete election-program poll with the same contents. -/
def samplePollE : Election.Poll :=
  { bump := 1, vote_counts := zeroVoteCounts, id := 7, authority := 2,
    nonce := 11, question := "best gadget" }

/-- Modelled from the spec: the argument order the spec's section 4.3
declares for the vote submission — plaintext 128-bit nonce first, then the
cluster-domain public key, then the confidential 8-bit value, then the
by-offset/length account reference.  Written from the spec's words for
comparison with the source-derived `Voting.voteArgs`. -/
def specVoteArgOrder (vote_nonce : Nat) (pk : Pubkey) (choice : Ciphertext)
    (poll_key : Pubkey) : List Argument :=
  [ Argument.PlaintextU128 vote_nonce,
    Argument.ArcisPubkey pk,
    Argument.EncryptedU8 choice,
    Argument.Account poll_key (8 + 1) (32 * 3) ]

/-- A 51-character question, one character over the 50-character bound. -/
def longQuestion : String := String.mk (List.replicate 51 'a')


namespace circuits

/-- Helper: a legal vote leaves every counter other than its own unchanged. -/
theorem vote_count_eq_of_ne (v : UserVote) (s : VoteStats) (hv : v.vote < 3)
    (j : Nat) (hj : j < 3) (hne : j ≠ v.vote) :
    count_at (vote v s) j = count_at s j := by
  have h3 : v.vote = 0 ∨ v.vote = 1 ∨ v.vote = 2 := by omega
  have hj3 : j = 0 ∨ j = 1 ∨ j = 2 := by omega
  rcases h3 with h | h | h <;> rcases hj3 with hj0 | hj0 | hj0 <;>
    simp_all [vote, count_at]

/-- Helper: a legal vote replaces its own counter by its wrapping successor. -/
theorem vote_count_self (v : UserVote) (s : VoteStats) (hv : v.vote < 3) :
    count_at (vote v s) v.vote = (count_at s v.vote + 1) % U64_MOD := by
  have h3 : v.vote = 0 ∨ v.vote = 1 ∨ v.vote = 2 := by omega
  rcases h3 with h | h | h <;> simp_all [vote, count_at]

/-- Helper: each counter of a fold over legal votes equals its start value
plus the number of votes carrying its code, provided that total stays below
the `u64` modulus. -/
theorem foldl_vote_count (votes : List UserVote) (s : VoteStats)
    (hleg : ∀ v ∈ votes, v.vote < 3) (i : Nat) (hi : i < 3)
    (hbound : count_at s i + (votes.filter (fun v => v.vote == i)).length < U64_MOD) :
    count_at (votes.foldl (fun t v => vote v t) s) i
      = count_at s i + (votes.filter (fun v => v.vote == i)).length := by
  induction votes generalizing s with
  | nil => simp
  | cons v t ih =>
    have hv : v.vote < 3 := hleg v (List.mem_cons_self v t)
    have hlegt : ∀ w ∈ t, w.vote < 3 := fun w hw => hleg w (List.mem_cons_of_mem v hw)
    by_cases hvi : v.vote = i
    · have hfilter : ((v :: t).filter (fun w => w.vote == i)).length
          = ((t.filter (fun w => w.vote == i)).length) + 1 := by
        simp [List.filter_cons, hvi]
      rw [hfilter] at hbound
      have hself : count_at (vote v s) i = count_at s i + 1 := by
        have := vote_count_self v s hv
        rw [hvi] at this
        rw [this, Nat.mod_eq_of_lt]
        omega
      have hstep : count_at (vote v s) i + (t.filter (fun w => w.vote == i)).length < U64_MOD := by
        rw [hself]; omega
      calc count_at ((v :: t).foldl (fun t v => vote v t) s) i
          = count_at (t.foldl (fun t v => vote v t) (vote v s)) i := by simp
        _ = count_at (vote v s) i + (t.filter (fun w => w.vote == i)).length :=
            ih (vote v s) hlegt hstep
        _ = count_at s i + (((t.filter (fun w => w.vote == i)).length) + 1) := by
            rw [hself]; omega
        _ = count_at s i + ((v :: t).filter (fun w => w.vote == i)).length := by
            rw [hfilter]
    · have hfilter : ((v :: t).filter (fun w => w.vote == i)).length
          = (t.filter (fun w => w.vote == i)).length := by
        simp [List.filter_cons, hvi]
      rw [hfilter] at hbound
      have hkeep : count_at (vote v s) i = count_at s i :=
        vote_count_eq_of_ne v s hv i hi (fun h => hvi h.symm)
      calc count_at ((v :: t).foldl (fun t v => vote v t) s) i
          = count_at (t.foldl (fun t v => vote v t) (vote v s)) i := by simp
        _ = count_at (vote v s) i + (t.filter (fun w => w.vote == i)).length := by
            refine ih (vote v s) hlegt ?_
            rw [hkeep]; exact hbound
        _ = count_at s i + ((v :: t).filter (fun w => w.vote == i)).length := by
            rw [hkeep, hfilter]

/-- Helper: every legal vote carries exactly one of the three codes, so the
three filtered sublists partition the list. -/
theorem filter_three_partition (votes : List UserVote)
    (hleg : ∀ v ∈ votes, v.vote < 3) :
    (votes.filter (fun v => v.vote == 0)).length
      + (votes.filter (fun v => v.vote == 1)).length
      + (votes.filter (fun v => v.vote == 2)).length = votes.length := by
  induction votes with
  | nil => simp
  | cons v t ih =>
    have hv : v.vote < 3 := hleg v (List.mem_cons_self v t)
    have hlegt : ∀ w ∈ t, w.vote < 3 := fun w hw => hleg w (List.mem_cons_of_mem v hw)
    have h3 : v.vote = 0 ∨ v.vote = 1 ∨ v.vote = 2 := by omega
    have iht := ih hlegt
    rcases h3 with h | h | h <;> simp [List.filter_cons, h] <;> omega

end circuits


/-! ## Claim theorems: the tally circuit -/

/-- C1: For every vote whose confidential option code is 0, 1, or 2, and
every tally state, the vote circuit increments exactly the counter at that
option's index by 1 (stated below the `u64` modulus, where the wrapping
increment is an exact increment) and leaves the other two counters
unchanged; consequently, after N accepted votes with legal codes the three
counters sum to N and each counter equals the number of votes encoding its
index. -/
theorem c1_vote_conservation :
    (∀ (v : circuits.UserVote) (s : circuits.VoteStats),
        v.vote < 3 →
        circuits.count_at s v.vote + 1 < U64_MOD →
        (circuits.count_at (circuits.vote v s) v.vote
            = circuits.count_at s v.vote + 1
          ∧ ∀ j, j < 3 → j ≠ v.vote →
              circuits.count_at (circuits.vote v s) j = circuits.count_at s j))
    ∧ (∀ votes : List circuits.UserVote,
        (∀ v ∈ votes, v.vote < 3) →
        votes.length < U64_MOD →
        (circuits.count_at (circuits.tally votes) 0
            + circuits.count_at (circuits.tally votes) 1
            + circuits.count_at (circuits.tally votes) 2 = votes.length
          ∧ ∀ i, i < 3 →
              circuits.count_at (circuits.tally votes) i
                = (votes.filter (fun v => v.vote == i)).length)) := by
  constructor
  · intro v s hv hov
    refine ⟨?_, fun j hj hne => circuits.vote_count_eq_of_ne v s hv j hj hne⟩
    rw [circuits.vote_count_self v s hv, Nat.mod_eq_of_lt hov]
  · intro votes hleg hN
    have hzero : ∀ i : Nat, circuits.count_at circuits.init_vote_stats i = 0 := by
      intro i
      rcases i with _ | _ | i <;> rfl
    have hidx : ∀ i, i < 3 →
        circuits.count_at (circuits.tally votes) i
          = (votes.filter (fun v => v.vote == i)).length := by
      intro i hi
      have hbound : circuits.count_at circuits.init_vote_stats i
          + (votes.filter (fun v => v.vote == i)).length < U64_MOD := by
        rw [hzero i]
        exact Nat.lt_of_le_of_lt
          (by simpa using List.length_filter_le (fun v => v.vote == i) votes) hN
      have := circuits.foldl_vote_count votes circuits.init_vote_stats hleg i hi hbound
      simpa [circuits.tally, hzero i] using this
    refine ⟨?_, hidx⟩
    rw [hidx 0 (by omega), hidx 1 (by omega), hidx 2 (by omega)]
    exact circuits.filter_three_partition votes hleg

/-- Witness for C1: a concrete vote for option 2 on counters (5, 6, 7)
yields (5, 6, 8), and the concrete ballot list [0, 1, 1, 2] tallies to
total 4 with 2 votes for option 1. -/
theorem c1_vote_conservation_witness :
    circuits.count_at (circuits.vote ⟨2⟩ ⟨5, 6, 7⟩) 2 = 8
    ∧ circuits.count_at (circuits.vote ⟨2⟩ ⟨5, 6, 7⟩) 0 = 5
    ∧ circuits.count_at (circuits.tally [⟨0⟩, ⟨1⟩, ⟨1⟩, ⟨2⟩]) 0
        + circuits.count_at (circuits.tally [⟨0⟩, ⟨1⟩, ⟨1⟩, ⟨2⟩]) 1
        + circuits.count_at (circuits.tally [⟨0⟩, ⟨1⟩, ⟨1⟩, ⟨2⟩]) 2 = 4
    ∧ circuits.count_at (circuits.tally [⟨0⟩, ⟨1⟩, ⟨1⟩, ⟨2⟩]) 1 = 2 := by
  refine ⟨?_, ?_, ?_, ?_⟩
  · exact ((c1_vote_conservation.1 ⟨2⟩ ⟨5, 6, 7⟩ (by decide)
      (by norm_num [circuits.count_at, U64_MOD])).1).trans (by decide)
  · exact ((c1_vote_conservation.1 ⟨2⟩ ⟨5, 6, 7⟩ (by decide)
      (by norm_num [circuits.count_at, U64_MOD])).2 0 (by decide) (by decide))
  · exact ((c1_vote_conservation.2 [⟨0⟩, ⟨1⟩, ⟨1⟩, ⟨2⟩] (by decide)
      (by norm_num [U64_MOD])).1).trans (by decide)
  · exact (((c1_vote_conservation.2 [⟨0⟩, ⟨1⟩, ⟨1⟩, ⟨2⟩] (by decide)
      (by norm_num [U64_MOD])).2 1 (by decide))).trans (by decide)

/-- C2: for every triple of counts the reveal circuit returns the smallest
index whose counter equals the maximum of the three (`List.findIdx` of the
first counter equal to the maximum), and in particular counts (3, 3, 1)
yield winner 0, counts (1, 5, 5) yield winner 1, and counts (0, 0, 0)
yield winner 0. -/
theorem c2_tie_break_smallest_index :
    (∀ s : circuits.VoteStats,
        circuits.reveal_result s
          = List.findIdx (fun c => c == circuits.maxCount s)
              [s.neo_robot, s.humane_ai_pin, s.friend_com])
    ∧ circuits.reveal_result ⟨3, 3, 1⟩ = 0
    ∧ circuits.reveal_result ⟨1, 5, 5⟩ = 1
    ∧ circuits.reveal_result ⟨0, 0, 0⟩ = 0 := by
  refine ⟨?_, by decide, by decide, by decide⟩
  intro s
  simp only [circuits.reveal_result, circuits.maxCount]
  have hM := max_choice (s.neo_robot.max s.humane_ai_pin) s.friend_com
  have hM' := max_choice s.neo_robot s.humane_ai_pin
  set M := (s.neo_robot.max s.humane_ai_pin).max s.friend_com with hMdef
  by_cases h0 : s.neo_robot = M
  · simp [List.findIdx_cons, h0]
  · have hb0 : (s.neo_robot == M) = false := beq_eq_false_iff_ne.mpr h0
    by_cases h1 : s.humane_ai_pin = M
    · simp [List.findIdx_cons, h0, h1, hb0]
    · have hb1 : (s.humane_ai_pin == M) = false := beq_eq_false_iff_ne.mpr h1
      have h2 : s.friend_com = M := by
        rcases hM with h | h
        · rcases hM' with h' | h'
          · exact absurd (h.trans h').symm h0
          · exact absurd (h.trans h').symm h1
        · exact h.symm
      simp [List.findIdx_cons, h0, h1, h2, hb0, hb1]

/-- C6: the vote circuit's update is an oblivious select-over-all-options:
on every well-formed `u64` state it coincides with `vote_mux`, the
data-independent arithmetic blend that unconditionally applies one addition
to each of the three counters, with operands derived from equality tests
against the secret code.  (The embedded semantics of the Arcis `if/else`
chain over the secret value is exactly this multiplexer; the spec-side
definition `vote_mux` is written from the spec's words.) -/
theorem c6_vote_is_oblivious_mux (v : circuits.UserVote)
    (s : circuits.VoteStats) (hs : circuits.wf64 s) :
    circuits.vote v s = circuits.vote_mux v s := by
  obtain ⟨h0, h1, h2⟩ := hs
  by_cases hv0 : v.vote = 0
  · simp [circuits.vote, circuits.vote_mux, hv0,
      Nat.mod_eq_of_lt h1, Nat.mod_eq_of_lt h2]
  · by_cases hv1 : v.vote = 1
    · simp [circuits.vote, circuits.vote_mux, hv0, hv1,
        Nat.mod_eq_of_lt h0, Nat.mod_eq_of_lt h2]
    · simp [circuits.vote, circuits.vote_mux, hv0, hv1,
        Nat.mod_eq_of_lt h0, Nat.mod_eq_of_lt h1]

/-- Witness for C6: on the well-formed state (1, 2, 3), a vote for
option 2 gives the same result through the branching circuit and through
the arithmetic multiplexer. -/
theorem c6_vote_is_oblivious_mux_witness :
    circuits.wf64 ⟨1, 2, 3⟩
    ∧ circuits.vote ⟨2⟩ ⟨1, 2, 3⟩ = circuits.vote_mux ⟨2⟩ ⟨1, 2, 3⟩ := by
  have hwf : circuits.wf64 ⟨1, 2, 3⟩ := by
    refine ⟨?_, ?_, ?_⟩ <;> norm_num [U64_MOD]
  exact ⟨hwf, c6_vote_is_oblivious_mux ⟨2⟩ ⟨1, 2, 3⟩ hwf⟩

/-- C10: every vote whose code is neither 0 nor 1 — in particular every
illegal code from 3 through 255 — increments the third counter
(`friend_com`, option index 2): illegal codes are silently tallied as
option 2, not rejected. -/
theorem c10_illegal_codes_tallied_as_option_two (v : circuits.UserVote)
    (s : circuits.VoteStats) (h0 : v.vote ≠ 0) (h1 : v.vote ≠ 1) :
    circuits.vote v s
      = { s with friend_com := (s.friend_com + 1) % U64_MOD } := by
  simp [circuits.vote, h0, h1]

/-- Witness for C10: the illegal code 5 on counters (4, 4, 4) increments
`friend_com` to 5. -/
theorem c10_illegal_codes_tallied_as_option_two_witness :
    circuits.vote ⟨5⟩ ⟨4, 4, 4⟩ = ⟨4, 4, 5⟩ := by
  refine (c10_illegal_codes_tallied_as_option_two ⟨5⟩ ⟨4, 4, 4⟩
    (by decide) (by decide)).trans ?_
  norm_num [U64_MOD]

/-! ## Claim theorems: the Anchor programs -/

/-- C3: every counts-mutating callback replaces the stored ciphertexts and
the stored nonce together, in one step, as a pair: on success each callback
writes exactly the cluster-produced (ciphertexts, nonce) pair, and on every
outcome the persisted state pairs counts and nonce from the same generation
(either both pre-call or both from the result), never a mixture. -/
theorem c3_counts_nonce_atomic_pair :
    (∀ (p : Voting.PollAccount) (t : Int) (out : MxeEncryptedStats),
        Voting.vote_callback p t (.Success out)
          = .ok ({ p with vote_state := out.ciphertexts, nonce := out.nonce },
                 [Event.VoteEvent t]))
    ∧ (∀ (p : Voting.PollAccount) (out : MxeEncryptedStats),
        Voting.init_vote_stats_callback p (.Success out)
          = .ok { p with vote_state := out.ciphertexts, nonce := out.nonce })
    ∧ (∀ (p : Election.Poll) (t : Int) (out : MxeEncryptedStats),
        Election.vote_callback p t ⟨.Success out, true⟩
          = .ok ({ p with vote_counts := out.ciphertexts, nonce := out.nonce },
                 [Event.VoteEvent t]))
    ∧ (∀ (p : Election.Poll) (out : MxeEncryptedStats),
        Election.create_poll_callback p (.Success out)
          = .ok { p with vote_counts := out.ciphertexts, nonce := out.nonce })
    ∧ (∀ (p : Voting.PollAccount) (t : Int)
        (o : ComputationOutputs MxeEncryptedStats),
        ((Voting.run_vote_callback p t o).1.vote_state = p.vote_state
            ∧ (Voting.run_vote_callback p t o).1.nonce = p.nonce)
          ∨ ∃ out, o = .Success out
              ∧ (Voting.run_vote_callback p t o).1.vote_state = out.ciphertexts
              ∧ (Voting.run_vote_callback p t o).1.nonce = out.nonce)
    ∧ (∀ (p : Election.Poll) (t : Int)
        (o : Election.SignedComputationOutputs MxeEncryptedStats),
        ((Election.run_vote_callback p t o).1.vote_counts = p.vote_counts
            ∧ (Election.run_vote_callback p t o).1.nonce = p.nonce)
          ∨ ∃ out, o.output = .Success out
              ∧ (Election.run_vote_callback p t o).1.vote_counts = out.ciphertexts
              ∧ (Election.run_vote_callback p t o).1.nonce = out.nonce) := by
  refine ⟨fun p t out => rfl, fun p out => rfl, fun p t out => rfl,
    fun p out => rfl, ?_, ?_⟩
  · intro p t o
    cases o with
    | Success out =>
        exact Or.inr ⟨out, rfl, rfl, rfl⟩
    | Failure =>
        exact Or.inl ⟨rfl, rfl⟩
  · intro p t o
    obtain ⟨output, sig⟩ := o
    cases sig with
    | false => exact Or.inl ⟨rfl, rfl⟩
    | true =>
        cases output with
        | Success out => exact Or.inr ⟨out, rfl, rfl, rfl⟩
        | Failure => exact Or.inl ⟨rfl, rfl⟩

/-- C4: a Reveal submitted by any identity other than the poll's stored
authority fails with `InvalidAuthority`, queues no computation, and leaves
the whole poll record unchanged — in both the voting and the election
program. -/
theorem c4_reveal_authority_gate (payer : Pubkey) (pv : Voting.PollAccount)
    (pe : Election.Poll) (key : Pubkey) (off : Nat)
    (hv : payer ≠ pv.authority) (he : payer ≠ pe.authority) :
    Voting.run_reveal_result payer pv key off
        = (pv, [], some ErrorCode.InvalidAuthority)
    ∧ Election.run_reveal_result payer pe key off
        = (pe, [], some ErrorCode.InvalidAuthority) := by
  constructor
  · simp [Voting.run_reveal_result, Voting.reveal_result, hv]
  · simp [Election.run_reveal_result, Election.reveal_result, he]

/-- Witness for C4: caller 1 against the sample polls whose authority is 2
is rejected with `InvalidAuthority`, with no queued computation and the
poll unchanged. -/
theorem c4_reveal_authority_gate_witness :
    (1 : Pubkey) ≠ samplePoll.authority
    ∧ Voting.run_reveal_result 1 samplePoll 9 0
        = (samplePoll, [], some ErrorCode.InvalidAuthority)
    ∧ Election.run_reveal_result 1 samplePollE 9 0
        = (samplePollE, [], some ErrorCode.InvalidAuthority) := by
  have hv : (1 : Pubkey) ≠ samplePoll.authority := by decide
  have he : (1 : Pubkey) ≠ samplePollE.authority := by decide
  have h := c4_reveal_authority_gate 1 samplePoll samplePollE 9 0 hv he
  exact ⟨hv, h.1, h.2⟩

/-- C5: when the cluster reports anything other than success for a Vote
computation, the vote callback returns `AbortedComputation`, the persisted
tally (counts and nonce) stays exactly at its pre-submission value, and no
vote event is emitted. -/
theorem c5_vote_abort_leaves_state (p : Voting.PollAccount) (t : Int)
    (o : ComputationOutputs MxeEncryptedStats) (h : o.isSuccess = false) :
    Voting.vote_callback p t o = .error ErrorCode.AbortedComputation
    ∧ Voting.run_vote_callback p t o
        = (p, [], some ErrorCode.AbortedComputation) := by
  cases o with
  | Success out => simp [ComputationOutputs.isSuccess] at h
  | Failure => exact ⟨rfl, rfl⟩

/-- Witness for C5: an aborted computation on the sample poll. -/
theorem c5_vote_abort_leaves_state_witness :
    (ComputationOutputs.Failure : ComputationOutputs MxeEncryptedStats).isSuccess
        = false
    ∧ Voting.run_vote_callback samplePoll 0 .Failure
        = (samplePoll, [], some ErrorCode.AbortedComputation) := by
  exact ⟨rfl, (c5_vote_abort_leaves_state samplePoll 0 .Failure rfl).2⟩

/-- Counterexample for C7: at concrete inputs the argument list the vote
submission actually builds does not match the order the claim declares
(plaintext nonce first, then public key): the list's first element is the
x25519 public key. -/
theorem c7_counterexample :
    Voting.voteArgs 1 2 zeroCiphertext samplePoll 9
      ≠ specVoteArgOrder 2 1 zeroCiphertext 9 := by
  decide

/-- C7 amended: the vote submission's ordered argument list (identical in
both programs) is: the cluster-domain x25519 public key, then the
plaintext 128-bit vote nonce, then the confidential 8-bit value, then the
plaintext 128-bit tally nonce from the poll account, then the
by-offset/length account reference (offset 8 + 1, length 32 * 3). -/
theorem c7_vote_args_actual_order (pk : Pubkey) (vote_nonce : Nat)
    (choice : Ciphertext) (pv : Voting.PollAccount) (pe : Election.Poll)
    (key : Pubkey) (h : pe.nonce = pv.nonce) :
    Voting.voteArgs pk vote_nonce choice pv key
      = [ Argument.ArcisPubkey pk, Argument.PlaintextU128 vote_nonce,
          Argument.EncryptedU8 choice, Argument.PlaintextU128 pv.nonce,
          Argument.Account key 9 96 ]
    ∧ Election.voteArgs pk vote_nonce choice pe key
      = Voting.voteArgs pk vote_nonce choice pv key := by
  constructor
  · rfl
  · simp [Election.voteArgs, Voting.voteArgs, Election.ArgBuilder.new,
      Election.ArgBuilder.x25519_pubkey, Election.ArgBuilder.plaintext_u128,
      Election.ArgBuilder.encrypted_u8, Election.ArgBuilder.account,
      Election.ArgBuilder.build, DISCRIMINATOR_LEN, h]

/-- Witness for C7's amended claim: at concrete inputs with equal tally
nonces, both programs build the same list, led by the public key. -/
theorem c7_vote_args_actual_order_witness :
    samplePollE.nonce = samplePoll.nonce
    ∧ Voting.voteArgs 1 2 zeroCiphertext samplePoll 9
        = [ Argument.ArcisPubkey 1, Argument.PlaintextU128 2,
            Argument.EncryptedU8 zeroCiphertext,
            Argument.PlaintextU128 samplePoll.nonce,
            Argument.Account 9 9 96 ]
    ∧ Election.voteArgs 1 2 zeroCiphertext samplePollE 9
        = Voting.voteArgs 1 2 zeroCiphertext samplePoll 9 := by
  have h : samplePollE.nonce = samplePoll.nonce := rfl
  have hc := c7_vote_args_actual_order 1 2 zeroCiphertext samplePoll
    samplePollE 9 h
  exact ⟨h, hc.1, hc.2⟩

/-- Counterexample for C8: a Vote invocation carrying a ciphertext whose
underlying code is 5 (outside 0..2) is not rejected — the handler queues
the computation, and the circuit tallies the illegal code as option 2 —
and a Create invocation with a 51-character question is not rejected
either: no `InvalidInput` rejection happens before submission. -/
theorem c8_counterexample :
    Voting.vote 1 7 zeroCiphertext 1 2 samplePoll 9
      = .ok [{ computation_offset := 1,
               args := Voting.voteArgs 1 2 zeroCiphertext samplePoll 9 }]
    ∧ circuits.vote ⟨5⟩ ⟨0, 0, 0⟩ = ⟨0, 0, 1⟩
    ∧ longQuestion.length = 51
    ∧ Voting.create_new_poll 1 7 longQuestion 11 2 1
        = .ok ({ bump := 1, vote_state := zeroVoteCounts, id := 7,
                 authority := 2, nonce := 11, question := longQuestion },
               [{ computation_offset := 1,
                  args := [Argument.PlaintextU128 11] }]) := by
  refine ⟨rfl, by decide, ?_, rfl⟩
  decide

/-- C8 amended: the programs define no `InvalidInput` error (the taxonomy
is exactly `InvalidAuthority`, `AbortedComputation`, `ClusterNotSet`), and
neither operation validates the claimed conditions: every Vote invocation
(whatever its opaque choice ciphertext encodes) and every Create
invocation (whatever its question length) unconditionally queues its
computation. -/
theorem c8_no_invalid_input_validation :
    (∀ (off poll_id : Nat) (choice : Ciphertext) (pk : Pubkey) (vn : Nat)
        (p : Voting.PollAccount) (key : Pubkey),
        Voting.vote off poll_id choice pk vn p key
          = .ok [{ computation_offset := off,
                   args := Voting.voteArgs pk vn choice p key }])
    ∧ (∀ (off poll_id : Nat) (choice : Ciphertext) (pk : Pubkey) (vn : Nat)
        (p : Election.Poll) (key : Pubkey),
        Election.vote off poll_id choice pk vn p key
          = .ok [{ computation_offset := off,
                   args := Election.voteArgs pk vn choice p key }])
    ∧ (∀ (off id : Nat) (q : String) (nonce : Nat) (payer : Pubkey)
        (bump : Nat),
        Voting.create_new_poll off id q nonce payer bump
          = .ok ({ bump := bump, vote_state := zeroVoteCounts, id := id,
                   authority := payer, nonce := nonce, question := q },
                 [{ computation_offset := off,
                    args := [Argument.PlaintextU128 nonce] }]))
    ∧ (∀ e : ErrorCode,
        e = ErrorCode.InvalidAuthority ∨ e = ErrorCode.AbortedComputation
          ∨ e = ErrorCode.ClusterNotSet) := by
  refine ⟨fun _ _ _ _ _ _ _ => rfl, fun _ _ _ _ _ _ _ => rfl,
    fun _ _ _ _ _ _ => rfl, fun e => ?_⟩
  cases e
  · exact Or.inl rfl
  · exact Or.inr (Or.inl rfl)
  · exact Or.inr (Or.inr rfl)

/-- C9: Reveal never mutates the tally: both the reveal submission and the
reveal callback leave every poll field exactly as it was (the callback's
account context holds no poll account at all), and on success the callback
only emits the winner event. -/
theorem c9_reveal_never_mutates :
    (∀ (payer : Pubkey) (p : Voting.PollAccount) (key : Pubkey) (off : Nat),
        (Voting.run_reveal_result payer p key off).1 = p)
    ∧ (∀ (p : Voting.PollAccount) (o : ComputationOutputs Nat),
        (Voting.run_reveal_result_callback p o).1 = p)
    ∧ (∀ (w : Nat) (p : Voting.PollAccount),
        Voting.run_reveal_result_callback p (.Success w)
          = (p, [Event.RevealResultEvent w], none))
    ∧ (∀ (payer : Pubkey) (p : Election.Poll) (key : Pubkey) (off : Nat),
        (Election.run_reveal_result payer p key off).1 = p)
    ∧ (∀ (p : Election.Poll) (o : Election.SignedComputationOutputs Nat),
        (Election.run_reveal_result_callback p o).1 = p)
    ∧ (∀ (w : Nat) (p : Election.Poll),
        Election.run_reveal_result_callback p ⟨.Success w, true⟩
          = (p, [Event.RevealResultEvent w], none)) := by
  refine ⟨?_, ?_, fun w p => rfl, ?_, ?_, fun w p => rfl⟩
  · intro payer p key off
    unfold Voting.run_reveal_result
    cases Voting.reveal_result payer p key off <;> rfl
  · intro p o
    unfold Voting.run_reveal_result_callback
    cases h : Voting.reveal_result_callback o <;> rfl
  · intro payer p key off
    unfold Election.run_reveal_result
    cases Election.reveal_result payer p key off <;> rfl
  · intro p o
    unfold Election.run_reveal_result_callback
    cases h : Election.reveal_result_callback o <;> rfl
